import Mathlib

/-!
Shallow embedding of `fetcher.go` (package `fetch`): the `Job` struct and its
`Fetch` method.  External collaborators (URL normalizer, `http.NewRequest`,
`client.Do`, `ioutil.ReadAll`, the two `time.Parse` formats, the clock, the
appengine probes) are modelled as an oracle environment `Env`; the control
flow of `Fetch` itself is translated line by line from the source.

Strings are Lean `String`s, Go's `strings.Contains` is `containsStr`,
byte slices are `List Nat`, `time.Time` is `Option Int` (seconds; `none` is
Go's zero time value), and durations are `Int`.
-/

namespace Fetcher

/-- Substring test at the head: `strStartsWith p s` is true iff `p` is a
prefix of `s` (character lists). -/
def strStartsWith : List Char → List Char → Bool
  | [], _ => true
  | _ :: _, [] => false
  | p :: ps, c :: cs => p == c && strStartsWith ps cs

/-- Contiguous-substring test on character lists, mirroring Go's
`strings.Contains` semantics. -/
def strHasSub (p : List Char) : List Char → Bool
  | [] => strStartsWith p []
  | c :: cs => strStartsWith p (c :: cs) || strHasSub p cs

/-- Go `strings.Contains(s, pat)`. -/
def containsStr (s pat : String) : Bool :=
  strHasSub pat.data s.data

/-- Go `strings.TrimSuffix(s, ":")`: drop a trailing colon when present
(expressed on the character list so it evaluates by kernel reduction). -/
def trimColon (s : String) : String :=
  if s.data.getLast? = some ':' then String.mk s.data.dropLast else s

/-- `var MsgNoRedirects = "redirect cancelled"` (fetcher.go line 22). -/
def MsgNoRedirects : String := "redirect cancelled"

/-- The relevant parts of Go's `url.URL`. -/
structure URL where
  scheme : String
  host : String
  path : String
deriving Repr, DecidableEq

/-- `u.String()` for the fields we track. -/
def URL.render (u : URL) : String :=
  u.scheme ++ "://" ++ u.host ++ u.path

/-- The relevant parts of Go's `http.Request`. -/
structure Request where
  method : String
  url : URL
deriving Repr, DecidableEq

/-- The relevant parts of Go's `http.Response`: status code, whether
`resp.Body` is non-nil, and the `Last-Modified` header value (`""` when the
header is absent, as `Header.Get` returns). -/
structure Response where
  statusCode : Int
  hasBody : Bool
  lastModified : String
deriving Repr, DecidableEq

/-- The `Job` struct of fetcher.go (fields relevant to `Fetch`).
`Req`/`AeReq` pointers become `Option`/`Bool`; `Mod : Option Int` models
`time.Time` with `none` as the zero value; `Err : Option String` models the
`error` field by its message text. -/
structure Job where
  URL : String := ""
  Req : Option Request := none
  Timeout : Int := 0
  OnRedirect : Int := 0
  LogLevel : Int := 0
  ForceProtocol : String := ""
  ForceHttps : Bool := false
  hasAeReq : Bool := false
  Status : Int := 0
  bts : List Nat := []
  Mod : Option Int := none
  Msg : String := ""
  Err : Option String := none
deriving Repr, DecidableEq

/-- Oracle environment for the external collaborators of `Fetch`.
`httpDo` returns Go's `(resp, err)` pair; `readAll` returns the bytes read
(possibly partial) and an optional error; the two `parse` fields are
`time.Parse` with the RFC1123 / RFC1123Z layouts; `now` is the clock in
seconds; `aeContextOk` is whether `appengine.NewContext` returns without
panicking, and `aePanicValue` the recovered value rendered when it panics. -/
structure Env where
  urlParseImproved : String → Except String URL
  newRequest : String → String → Except String Request
  httpDo : Request → Option Response × Option String
  readAll : Response → List Nat × Option String
  parseRFC1123 : String → Option Int
  parseRFC1123Z : String → Option Int
  now : Int
  isDevAppServer : Bool
  aeContextOk : Bool
  aePanicValue : String

/-- The benign-redirect test of the callback (fetcher.go line 175):
`len(via) == 1 && req.URL.Path == via[0].URL.Path+"/"`. -/
def redirectAllowed (req : Request) (via : List Request) : Bool :=
  match via with
  | [v] => req.url.path == v.url.path ++ "/"
  | _ => false

/-- The path-accumulation loop of the callback (fetcher.go lines 180-183):
each element of `via` contributes `v.URL.Path + "\n"`. -/
def viaPaths : List Request → String
  | [] => ""
  | v :: rest => v.url.path ++ "\n" ++ viaPaths rest

/-- The diagnostic chain string `spath` built by the callback:
starts with `"\n"`, then every via path, then the target path. -/
def redirectChain (req : Request) (via : List Request) : String :=
  "\n" ++ viaPaths via ++ req.url.path ++ "\n"

/-- The redirect-inspection callback installed when `OnRedirect == 1`
(fetcher.go lines 174-185).  `none` models returning `nil`;
`some e` models `fmt.Errorf("%v %v", MsgNoRedirects, spath)`. -/
def redirectHandler (req : Request) (via : List Request) : Option String :=
  if redirectAllowed req via then none
  else some (MsgNoRedirects ++ " " ++ redirectChain req via)

/-- Result of one `Fetch` call: the mutated job, the requests passed to
`client.Do` in order, whether `ioutil.ReadAll` ran on a response body, and
whether `resp.Body.Close()` was called before returning. -/
structure FetchResult where
  job : Job
  trace : List Request
  bodyRead : Bool
  bodyClosed : Bool
deriving Repr, DecidableEq

/-- The TLS-signature classification (fetcher.go lines 205-206):
`httpsCause` after the two `strings.Contains` updates. -/
def httpsCauseB (err : String) : Bool :=
  containsStr err "SSL_CERTIFICATE_ERROR" ||
  containsStr err "tls: oversized record received with length"

/-- `time.Now().Add(-10 * time.Minute)` in seconds. -/
def staleMod (env : Env) : Option Int := some (env.now - 600)

/-- Scheme downgrade performed by the fallback (fetcher.go line 223). -/
def downgrade (req : Request) : Request :=
  { req with url := { req.url with scheme := "http" } }

/-- The success tail of `Fetch` (fetcher.go lines 255-283): nil-response
check, status capture, body read (with the `defer resp.Body.Close()` that is
only registered when the read succeeds), and Last-Modified parsing trying
RFC1123 then RFC1123Z. -/
def successTail (env : Env) (f : Job) (resp : Option Response)
    (trace : List Request) : FetchResult :=
  match resp with
  | none => ⟨{ f with Err := some "resp or resp.Body was nil" }, trace, false, false⟩
  | some r =>
    if !r.hasBody then
      ⟨{ f with Err := some "resp or resp.Body was nil" }, trace, false, false⟩
    else
      let f := { f with Status := r.statusCode }
      match env.readAll r with
      | (bs, some e) => ⟨{ f with bts := bs, Err := some e }, trace, true, false⟩
      | (bs, none) =>
        let f := { f with bts := bs, Err := none }
        let tlm : Option Int :=
          if r.lastModified == "" then none
          else
            match env.parseRFC1123 r.lastModified with
            | some t => some t
            | none =>
              match env.parseRFC1123Z r.lastModified with
              | some t => some t
              | none => none
        ⟨{ f with Mod := tlm }, trace, true, true⟩

/-- The dispatch-and-fallback state machine of `Fetch`
(fetcher.go lines 189-283), starting from the prepared job `f0` and the
request about to be dispatched. -/
def dispatchPhase (env : Env) (f0 : Job) (req0 : Request) : FetchResult :=
  let f := { f0 with Req := some req0 }
  match env.httpDo req0 with
  | (resp, none) => successTail env f resp [req0]
  | (_, some err) =>
    if f.OnRedirect == (1 : Int) && containsStr err MsgNoRedirects then
      ⟨{ f with Mod := staleMod env,
                Msg := f.Msg ++ "First call failed due to redirect\n",
                Err := some err }, [req0], false, false⟩
    else
      let cause := httpsCauseB err
      if cause && req0.url.scheme == "https" && req0.method == "POST" then
        let f := { f with
          Msg := f.Msg ++ "Cannot do https requests. Possible reason: Dev server\n" }
        let f := if containsStr err
            "net/http: Client Transport of type init.failingTransport doesn't support CancelRequest; Timeout not supported"
          then { f with Msg := f.Msg ++ "Did you forget to submit the AE Request?\n" }
          else f
        ⟨{ f with Err := some err }, [req0], false, false⟩
      else if cause && req0.url.scheme == "https" && req0.method == "GET" then
        let req1 := downgrade req0
        let f := { f with Req := some req1 }
        match env.httpDo req1 with
        | (_, some err2) =>
          if f.OnRedirect == (1 : Int) && containsStr err2 MsgNoRedirects then
            ⟨{ f with Mod := staleMod env,
                      Msg := f.Msg ++ "GET fallback failed due to redirect\n",
                      Err := some err2 }, [req0, req1], false, false⟩
          else
            ⟨{ f with Msg := f.Msg ++ "GET fallback to http failed with " ++ err2 ++ "\n",
                      Err := some err }, [req0, req1], false, false⟩
        | (resp2, none) =>
          let f := { f with
            Msg := f.Msg ++ "\tsuccessful fallback to http " ++ req1.url.render
                   ++ "\tafter " ++ err ++ "\n" }
          successTail env f resp2 [req0, req1]
      else
        ⟨{ f with Err := some err }, [req0], false, false⟩

/-- Default-path fix (fetcher.go lines 120-122). -/
def stepPath (req : Request) : Request :=
  if req.url.path == "" then { req with url := { req.url with path := "/" } }
  else req

/-- Forced-protocol normalization and override (fetcher.go lines 124-130):
when the configured string is longer than one character its trailing colon
is trimmed and stored back; if the result is exactly `http` or `https` it
replaces the request scheme and the override is logged. -/
def stepForce (f : Job) (req : Request) : Job × Request :=
  if f.ForceProtocol.length > 1 then
    let fp := trimColon f.ForceProtocol
    let f := { f with ForceProtocol := fp }
    if fp == "http" || fp == "https" then
      ({ f with Msg := f.Msg ++ "Forcing protocol \"" ++ fp ++ "\"\n" },
       { req with url := { req.url with scheme := fp } })
    else (f, req)
  else (f, req)

/-- The recovered-panic log line of the appengine context probe
(fetcher.go lines 138-146): the deferred function appends the recovered
value (`<nil>` when there was no panic) whenever `AeReq` is supplied. -/
def stepAeProbe (env : Env) (f : Job) : Job :=
  if f.hasAeReq then
    { f with Msg := f.Msg ++ "appengine panic: "
             ++ (if env.aeContextOk then "<nil>" else env.aePanicValue) ++ "\n" }
  else f

/-- Client selection (fetcher.go lines 147-167): standard client when no
appengine context is available, appengine client otherwise — including the
dev-server scheme downgrade unless `ForceHttps` is set. -/
def stepClient (env : Env) (f : Job) (req : Request) : Job × Request :=
  if !f.hasAeReq || !env.aeContextOk then
    ({ f with Msg := f.Msg ++ "standard  client\n" }, req)
  else
    let f := { f with Msg := f.Msg ++ "appengine client\n" }
    if env.isDevAppServer && !f.ForceHttps then
      (f, { req with url := { req.url with scheme := "http" } })
    else (f, req)

/-- The standardized-URL log line (fetcher.go lines 169-171). -/
def stepLogStd (f : Job) (req : Request) : Job :=
  if f.LogLevel > (0 : Int) then
    { f with Msg := f.Msg ++ "url standardized to " ++ req.url.render ++ "\n" }
  else f

/-- Request normalization shared by both entry branches
(fetcher.go lines 120-171): default path, forced protocol, client selection
with the appengine dev-server downgrade, and the standardized-URL log line. -/
def afterReq (env : Env) (f : Job) (req : Request) : Job × Request :=
  let req := stepPath req
  let fr := stepForce f req
  let f := stepAeProbe env fr.1
  let fr2 := stepClient env f fr.2
  (stepLogStd fr2.1 fr2.2, fr2.2)

/-- Timeout defaulting (fetcher.go lines 87-89). -/
def prepTimeout (f0 : Job) : Job :=
  if f0.Timeout == (0 : Int) then { f0 with Timeout := 35 } else f0

/-- Entry log line (fetcher.go lines 91-97). -/
def prepLog (f : Job) : Job :=
  if f.LogLevel > (0 : Int) then
    { f with Msg := f.Msg ++ (match f.Req with
      | some r => "orig req url: " ++ r.url.render ++ "\n"
      | none => "orig str url: " ++ f.URL ++ "\n") }
  else f

/-- The entry of `Fetch` up to the point where a request is ready to be
dispatched (fetcher.go lines 87-171).  `Sum.inl` is an early return (URL
parse or request construction failed); `Sum.inr` carries the prepared job
and outbound request. -/
def prepare (env : Env) (f0 : Job) : Job ⊕ (Job × Request) :=
  let f := prepLog (prepTimeout f0)
  match f.Req with
  | none =>
    match env.urlParseImproved f.URL with
    | .error e => Sum.inl { f with Err := some e }
    | .ok u =>
      let f := { f with URL := u.render }
      match env.newRequest "GET" f.URL with
      | .error e => Sum.inl { f with Err := some e }
      | .ok req => Sum.inr (afterReq env f req)
  | some req =>
    let req := if req.url.scheme == "" then
        { req with url := { req.url with scheme := "https" } }
      else req
    Sum.inr (afterReq env f req)

/-- `func (f *Job) Fetch()` (fetcher.go lines 82-285). -/
def fetch (env : Env) (f0 : Job) : FetchResult :=
  match prepare env f0 with
  | Sum.inl f => ⟨f, [], false, false⟩
  | Sum.inr (f, req) => dispatchPhase env f req


/-! ### Substring bridge lemmas -/

theorem strStartsWith_iff (p s : List Char) : strStartsWith p s = true ↔ p <+: s := by
  induction p generalizing s with
  | nil => simp [strStartsWith]
  | cons a ps ih =>
    cases s with
    | nil => simp [strStartsWith]
    | cons c cs =>
      simp only [strStartsWith, Bool.and_eq_true, beq_iff_eq, ih, List.cons_prefix_cons]

theorem strHasSub_iff (p s : List Char) : strHasSub p s = true ↔ p <:+: s := by
  induction s with
  | nil => cases p <;> simp [strHasSub, strStartsWith, List.infix_nil]
  | cons c cs ih =>
    simp [strHasSub, strStartsWith_iff, ih, List.infix_cons_iff]

theorem containsStr_iff (s pat : String) :
    containsStr s pat = true ↔ pat.data <:+: s.data := by
  simp [containsStr, strHasSub_iff]

/-! ### Frame lemmas for the preparation steps -/

theorem prepTimeout_Req (f : Job) : (prepTimeout f).Req = f.Req := by
  unfold prepTimeout; split <;> rfl

theorem prepTimeout_URL (f : Job) : (prepTimeout f).URL = f.URL := by
  unfold prepTimeout; split <;> rfl

theorem prepTimeout_Status (f : Job) : (prepTimeout f).Status = f.Status := by
  unfold prepTimeout; split <;> rfl

theorem prepTimeout_Err (f : Job) : (prepTimeout f).Err = f.Err := by
  unfold prepTimeout; split <;> rfl

theorem prepTimeout_ForceProtocol (f : Job) :
    (prepTimeout f).ForceProtocol = f.ForceProtocol := by
  unfold prepTimeout; split <;> rfl

theorem prepTimeout_hasAeReq (f : Job) : (prepTimeout f).hasAeReq = f.hasAeReq := by
  unfold prepTimeout; split <;> rfl

theorem prepTimeout_ForceHttps (f : Job) : (prepTimeout f).ForceHttps = f.ForceHttps := by
  unfold prepTimeout; split <;> rfl

theorem prepTimeout_OnRedirect (f : Job) : (prepTimeout f).OnRedirect = f.OnRedirect := by
  unfold prepTimeout; split <;> rfl

theorem prepLog_Req (f : Job) : (prepLog f).Req = f.Req := by
  unfold prepLog; split <;> rfl

theorem prepLog_URL (f : Job) : (prepLog f).URL = f.URL := by
  unfold prepLog; split <;> rfl

theorem prepLog_Status (f : Job) : (prepLog f).Status = f.Status := by
  unfold prepLog; split <;> rfl

theorem prepLog_Err (f : Job) : (prepLog f).Err = f.Err := by
  unfold prepLog; split <;> rfl

theorem prepLog_ForceProtocol (f : Job) : (prepLog f).ForceProtocol = f.ForceProtocol := by
  unfold prepLog; split <;> rfl

theorem prepLog_hasAeReq (f : Job) : (prepLog f).hasAeReq = f.hasAeReq := by
  unfold prepLog; split <;> rfl

theorem prepLog_ForceHttps (f : Job) : (prepLog f).ForceHttps = f.ForceHttps := by
  unfold prepLog; split <;> rfl

theorem prepLog_OnRedirect (f : Job) : (prepLog f).OnRedirect = f.OnRedirect := by
  unfold prepLog; split <;> rfl


/-! ### Substring containment helpers -/

theorem containsStr_of_parts (s pat : String) (a b : List Char)
    (h : s.data = a ++ pat.data ++ b) : containsStr s pat = true := by
  rw [containsStr_iff, h]
  exact List.infix_append _ _ _

theorem viaPaths_decomp (v : Request) (via : List Request) (hv : v ∈ via) :
    ∃ a b, (viaPaths via).data = a ++ v.url.path.data ++ b := by
  induction via with
  | nil => cases hv
  | cons w ws ih =>
    rcases List.mem_cons.mp hv with h | h
    · subst h
      exact ⟨[], ("\n" ++ viaPaths ws).data, by
        simp [viaPaths, String.data_append, List.append_assoc]⟩
    · obtain ⟨a, b, hab⟩ := ih h
      exact ⟨(w.url.path ++ "\n").data ++ a, b, by
        simp [viaPaths, String.data_append, hab, List.append_assoc]⟩

/-- A fixed environment used by the concrete evaluations below; individual
checks override the fields they exercise. -/
def baseEnv : Env where
  urlParseImproved := fun _ => Except.error "parse error"
  newRequest := fun m u => Except.ok ⟨m, ⟨"https", u, "/"⟩⟩
  httpDo := fun _ => (none, some "no network")
  readAll := fun _ => ([], none)
  parseRFC1123 := fun _ => none
  parseRFC1123Z := fun _ => none
  now := 10000
  isDevAppServer := false
  aeContextOk := false
  aePanicValue := "recovered"

/-! ### Claim C2 -/

/-- C2: with `OnRedirect == 1` the installed redirect callback accepts
exactly the single-hop "original path plus trailing slash" shape, and every
other shape yields an error whose message is the marker `redirect cancelled`
followed by the full chain of visited paths (each via path and the target
path occur in the message). -/
theorem claim_c2_redirect_callback (req : Request) (via : List Request) :
    (redirectHandler req via = none ↔
      ∃ v, via = [v] ∧ req.url.path = v.url.path ++ "/") ∧
    ∀ e, redirectHandler req via = some e →
      e = MsgNoRedirects ++ " " ++ redirectChain req via ∧
      containsStr e MsgNoRedirects = true ∧
      containsStr e req.url.path = true ∧
      ∀ v ∈ via, containsStr e v.url.path = true := by
  constructor
  · rcases via with _ | ⟨v, _ | ⟨w, rest⟩⟩ <;>
      simp [redirectHandler, redirectAllowed]
  · intro e he
    have he' : e = MsgNoRedirects ++ " " ++ redirectChain req via := by
      unfold redirectHandler at he
      split at he
      · exact absurd he (by simp)
      · exact (Option.some.inj he).symm
    refine ⟨he', ?_, ?_, ?_⟩
    · apply containsStr_of_parts _ _ [] ((" " ++ redirectChain req via).data)
      simp [he', String.data_append, List.append_assoc]
    · apply containsStr_of_parts _ _
        ((MsgNoRedirects ++ " " ++ "\n" ++ viaPaths via).data) ("\n".data)
      simp [he', redirectChain, String.data_append, List.append_assoc]
    · intro v hv
      obtain ⟨a, b, hab⟩ := viaPaths_decomp v via hv
      apply containsStr_of_parts _ _
        ((MsgNoRedirects ++ " " ++ "\n").data ++ a) (b ++ (req.url.path ++ "\n").data)
      simp [he', redirectChain, String.data_append, hab, List.append_assoc]

/-- Witness for C2 at a concrete rejected redirect `/a → /b`. -/
theorem claim_c2_witness :
    redirectHandler ⟨"GET", ⟨"http", "h", "/b"⟩⟩ [⟨"GET", ⟨"http", "h", "/a"⟩⟩] =
      some "redirect cancelled \n/a\n/b\n" ∧
    containsStr "redirect cancelled \n/a\n/b\n" "/a" = true :=
  ⟨by decide,
   ((claim_c2_redirect_callback ⟨"GET", ⟨"http", "h", "/b"⟩⟩
      [⟨"GET", ⟨"http", "h", "/a"⟩⟩]).2
      "redirect cancelled \n/a\n/b\n" (by decide)).2.2.2
      ⟨"GET", ⟨"http", "h", "/a"⟩⟩ (by decide)⟩

/-! ### Claim C6 -/

/-- C6: when no prebuilt request is supplied and the URL string fails to
parse, the job's error is the parse error and no dispatch happens (empty
trace: `client.Do` is never invoked). -/
theorem claim_c6_parse_failure (env : Env) (f0 : Job) (e : String)
    (hreq : f0.Req = none)
    (hparse : env.urlParseImproved f0.URL = Except.error e) :
    (fetch env f0).job.Err = some e ∧ (fetch env f0).trace = [] := by
  have h1 : (prepLog (prepTimeout f0)).Req = none := by
    rw [prepLog_Req, prepTimeout_Req, hreq]
  have h2 : (prepLog (prepTimeout f0)).URL = f0.URL := by
    rw [prepLog_URL, prepTimeout_URL]
  unfold fetch prepare
  simp [h1, h2, hparse]

/-- Witness for C6: a job whose URL does not parse. -/
theorem claim_c6_witness :
    (fetch baseEnv { URL := "::bad" }).job.Err = some "parse error" ∧
    (fetch baseEnv { URL := "::bad" }).trace = [] :=
  claim_c6_parse_failure baseEnv { URL := "::bad" } "parse error" rfl rfl


/-! ### Dispatch-phase helper lemmas -/

theorem successTail_trace (env : Env) (f : Job) (resp : Option Response)
    (tr : List Request) : (successTail env f resp tr).trace = tr := by
  rcases resp with _ | r
  · rfl
  · by_cases hb : r.hasBody = true
    · rcases h : env.readAll r with ⟨bs, _ | e⟩ <;> simp [successTail, hb, h]
    · simp [successTail, hb]

/-! ### Claim C1 -/

/-- C1 (amended): after a first-dispatch failure whose error text matches a
TLS signature while the dispatched scheme is `https`: for a GET request the
dispatch is re-attempted exactly once over `http` — provided the error is
not first consumed by the redirect-rejection branch (`OnRedirect == 1` and
the error containing the marker); for a POST request no retry ever occurs
and the original error is stored. -/
theorem claim_c1_amended (env : Env) (f0 f : Job) (req : Request)
    (r : Option Response) (e : String)
    (hprep : prepare env f0 = Sum.inr (f, req))
    (hdo : env.httpDo req = (r, some e))
    (hcause : httpsCauseB e = true)
    (hscheme : req.url.scheme = "https") :
    (req.method = "GET" →
      (f.OnRedirect == (1 : Int) && containsStr e MsgNoRedirects) = false →
      (fetch env f0).trace = [req, downgrade req]) ∧
    (req.method = "POST" →
      (fetch env f0).trace = [req] ∧ (fetch env f0).job.Err = some e) := by
  have hfetch : fetch env f0 = dispatchPhase env f req := by
    unfold fetch; rw [hprep]
  have hgp : (("GET" : String) == "POST") = false := by rfl
  have hss : (("https" : String) == "https") = true := by rfl
  have hgg : (("GET" : String) == "GET") = true := by rfl
  have hpp : (("POST" : String) == "POST") = true := by rfl
  constructor
  · intro hGET hno
    rw [hfetch]
    simp only [dispatchPhase, hdo]
    simp [hno, hcause, hscheme, hGET, hgp, hss, hgg]
    rcases h2 : env.httpDo (downgrade req) with ⟨r2, _ | e2⟩
    · simp [h2, successTail_trace]
    · simp only [h2]
      split <;> rfl
  · intro hPOST
    rw [hfetch]
    simp only [dispatchPhase, hdo]
    by_cases hred : (f.OnRedirect == (1 : Int) && containsStr e MsgNoRedirects) = true
    · simp [hred]
    · simp only [Bool.not_eq_true] at hred
      simp [hred, hcause, hscheme, hPOST, hss, hpp, hgp]

/-- Environment for the C1 counterexample: the sole dispatch fails with an
error that carries both the redirect marker and a TLS signature. -/
def envC1x : Env :=
  { baseEnv with httpDo := fun _ =>
      (none, some "redirect cancelled SSL_CERTIFICATE_ERROR") }

/-- Job for the C1 counterexample: GET over https with `OnRedirect == 1`. -/
def jobC1x : Job :=
  { Req := some ⟨"GET", ⟨"https", "h", "/"⟩⟩, OnRedirect := 1 }

/-- C1 counterexample: a GET dispatch over https failing with an error that
matches a TLS signature, yet no retry happens (one dispatch only), because
the error also contains the redirect marker and `OnRedirect == 1`. -/
theorem claim_c1_counterexample :
    httpsCauseB "redirect cancelled SSL_CERTIFICATE_ERROR" = true ∧
    jobC1x.OnRedirect = 1 ∧
    (fetch envC1x jobC1x).trace = [⟨"GET", ⟨"https", "h", "/"⟩⟩] := by
  refine ⟨by decide, rfl, ?_⟩
  decide

/-- Environment for the C1/C4/C10 witnesses: https dispatch fails with a TLS
signature, the http retry fails with an unrelated error. -/
def envTLSThenRefused : Env :=
  { baseEnv with httpDo := fun r =>
      if r.url.scheme == "https" then (none, some "SSL_CERTIFICATE_ERROR")
      else (none, some "connection refused") }

/-- The GET-over-https request used by the concrete dispatch evaluations. -/
def reqHttpsGet : Request := ⟨"GET", ⟨"https", "h", "/"⟩⟩

/-- Witness for C1 at a concrete GET fallback: exactly two dispatches, the
second over http. -/
theorem claim_c1_witness :
    (fetch envTLSThenRefused { Req := some reqHttpsGet }).trace =
      [⟨"GET", ⟨"https", "h", "/"⟩⟩, ⟨"GET", ⟨"http", "h", "/"⟩⟩] :=
  (claim_c1_amended envTLSThenRefused { Req := some reqHttpsGet }
      { Req := some reqHttpsGet, Timeout := 35, Msg := "standard  client\n" }
      reqHttpsGet none "SSL_CERTIFICATE_ERROR"
      (by decide) (by decide) (by decide) rfl).1 rfl (by decide)


/-! ### Claim C3 -/

/-- C3: with `OnRedirect == 1`, whenever a dispatch error (first dispatch,
or the http fallback retry) contains the `redirect cancelled` marker, the
job's modification time is set to now minus 10 minutes, the error field is
set to that dispatch error, and no further dispatch happens. -/
theorem claim_c3_redirect_stale (env : Env) (f0 f : Job) (req : Request)
    (e : String)
    (hprep : prepare env f0 = Sum.inr (f, req))
    (hor : f.OnRedirect = 1)
    (hcase :
      (∃ r, env.httpDo req = (r, some e) ∧ containsStr e MsgNoRedirects = true) ∨
      (∃ r1 e1 r2, env.httpDo req = (r1, some e1) ∧
        containsStr e1 MsgNoRedirects = false ∧ httpsCauseB e1 = true ∧
        req.url.scheme = "https" ∧ req.method = "GET" ∧
        env.httpDo (downgrade req) = (r2, some e) ∧
        containsStr e MsgNoRedirects = true)) :
    (fetch env f0).job.Mod = staleMod env ∧
    (fetch env f0).job.Err = some e ∧
    ((fetch env f0).trace = [req] ∨
     (fetch env f0).trace = [req, downgrade req]) := by
  have hfetch : fetch env f0 = dispatchPhase env f req := by
    unfold fetch; rw [hprep]
  have hgp : (("GET" : String) == "POST") = false := by rfl
  rw [hfetch]
  rcases hcase with ⟨r, hdo, hm⟩ | ⟨r1, e1, r2, hdo1, hm1, hc1, hs1, hg1, hdo2, hm2⟩
  · simp only [dispatchPhase, hdo]
    simp [hor, hm]
  · simp only [dispatchPhase, hdo1]
    simp [hor, hm1, hc1, hs1, hg1, hgp]
    simp only [hdo2]
    simp [hor, hm2]

/-- Environment for the C3 witness: every dispatch is rejected by the
redirect callback. -/
def envC3w : Env :=
  { baseEnv with httpDo := fun _ =>
      (none, some "redirect cancelled \n/a\n/b\n") }

/-- Witness for C3 at a concrete redirect rejection on the first call. -/
theorem claim_c3_witness :
    (fetch envC3w { Req := some reqHttpsGet, OnRedirect := 1 }).job.Mod =
      staleMod envC3w ∧
    (fetch envC3w { Req := some reqHttpsGet, OnRedirect := 1 }).job.Err =
      some "redirect cancelled \n/a\n/b\n" ∧
    ((fetch envC3w { Req := some reqHttpsGet, OnRedirect := 1 }).trace =
      [reqHttpsGet] ∨
     (fetch envC3w { Req := some reqHttpsGet, OnRedirect := 1 }).trace =
      [reqHttpsGet, downgrade reqHttpsGet]) :=
  claim_c3_redirect_stale envC3w { Req := some reqHttpsGet, OnRedirect := 1 }
    { Req := some reqHttpsGet, OnRedirect := 1, Timeout := 35,
      Msg := "standard  client\n" }
    reqHttpsGet "redirect cancelled \n/a\n/b\n"
    (by decide) rfl (Or.inl ⟨none, rfl, by decide⟩)

/-! ### Claim C4 -/

/-- C4: when the http fallback retry fails with an error not containing the
redirect marker, the job's error is the original pre-fallback error; when
the retry's failure does contain the marker and `OnRedirect == 1`, the
retry's error is stored together with the stale-timestamp sentinel. -/
theorem claim_c4_fallback_error (env : Env) (f0 f : Job) (req : Request)
    (r1 r2 : Option Response) (e1 e2 : String)
    (hprep : prepare env f0 = Sum.inr (f, req))
    (hdo1 : env.httpDo req = (r1, some e1))
    (hno1 : (f.OnRedirect == (1 : Int) && containsStr e1 MsgNoRedirects) = false)
    (hcause : httpsCauseB e1 = true)
    (hscheme : req.url.scheme = "https")
    (hmeth : req.method = "GET")
    (hdo2 : env.httpDo (downgrade req) = (r2, some e2)) :
    (containsStr e2 MsgNoRedirects = false →
      (fetch env f0).job.Err = some e1) ∧
    (f.OnRedirect = 1 → containsStr e2 MsgNoRedirects = true →
      (fetch env f0).job.Err = some e2 ∧
      (fetch env f0).job.Mod = staleMod env) := by
  have hfetch : fetch env f0 = dispatchPhase env f req := by
    unfold fetch; rw [hprep]
  have hgp : (("GET" : String) == "POST") = false := by rfl
  constructor
  · intro hm2
    rw [hfetch]
    simp only [dispatchPhase, hdo1]
    simp [hno1, hcause, hscheme, hmeth, hgp]
    simp only [hdo2]
    simp [hm2]
  · intro hor hm2
    rw [hfetch]
    simp only [dispatchPhase, hdo1]
    simp [hno1, hcause, hscheme, hmeth, hgp]
    simp only [hdo2]
    simp [hor, hm2]

/-- Witness for C4 at a concrete fallback whose retry fails with an
unrelated error: the original TLS error is surfaced. -/
theorem claim_c4_witness :
    (fetch envTLSThenRefused { Req := some reqHttpsGet }).job.Err =
      some "SSL_CERTIFICATE_ERROR" :=
  (claim_c4_fallback_error envTLSThenRefused { Req := some reqHttpsGet }
      { Req := some reqHttpsGet, Timeout := 35, Msg := "standard  client\n" }
      reqHttpsGet none none "SSL_CERTIFICATE_ERROR" "connection refused"
      (by decide) rfl (by decide) (by decide) rfl rfl rfl).1 (by decide)

/-! ### Claim C10 -/

/-- C10 (amended): when the http fallback retry is attempted and fails, the
job's request keeps the downgraded `http` scheme after `Fetch` returns; the
surfaced error is the original https-dispatch error whenever the retry's
failure is not consumed by the redirect-rejection branch. -/
theorem claim_c10_amended (env : Env) (f0 f : Job) (req : Request)
    (r1 r2 : Option Response) (e1 e2 : String)
    (hprep : prepare env f0 = Sum.inr (f, req))
    (hdo1 : env.httpDo req = (r1, some e1))
    (hno1 : (f.OnRedirect == (1 : Int) && containsStr e1 MsgNoRedirects) = false)
    (hcause : httpsCauseB e1 = true)
    (hscheme : req.url.scheme = "https")
    (hmeth : req.method = "GET")
    (hdo2 : env.httpDo (downgrade req) = (r2, some e2)) :
    (fetch env f0).job.Req = some (downgrade req) ∧
    (downgrade req).url.scheme = "http" ∧
    ((f.OnRedirect == (1 : Int) && containsStr e2 MsgNoRedirects) = false →
      (fetch env f0).job.Err = some e1) := by
  have hfetch : fetch env f0 = dispatchPhase env f req := by
    unfold fetch; rw [hprep]
  have hgp : (("GET" : String) == "POST") = false := by rfl
  refine ⟨?_, rfl, ?_⟩
  · rw [hfetch]
    simp only [dispatchPhase, hdo1]
    simp [hno1, hcause, hscheme, hmeth, hgp]
    simp only [hdo2]
    split <;> rfl
  · intro hno2
    rw [hfetch]
    simp only [dispatchPhase, hdo1]
    simp [hno1, hcause, hscheme, hmeth, hgp]
    simp only [hdo2]
    have hb : ¬(f.OnRedirect = 1) ∨ ¬(containsStr e2 MsgNoRedirects = true) := by
      cases h1 : (f.OnRedirect == (1 : Int)) <;>
        cases h2 : containsStr e2 MsgNoRedirects <;> simp_all
    rcases hb with hb | hb <;> simp [hb]

/-- Environment for the C10 counterexample: the https dispatch fails with a
TLS signature and the http retry is rejected by the redirect callback. -/
def envC10x : Env :=
  { baseEnv with httpDo := fun r =>
      if r.url.scheme == "https" then (none, some "SSL_CERTIFICATE_ERROR")
      else (none, some "redirect cancelled \n/a\n/b\n") }

/-- Job for the C10 counterexample. -/
def jobC10x : Job := { Req := some reqHttpsGet, OnRedirect := 1 }

/-- C10 counterexample: the fallback retry is attempted and fails, the
scheme stays `http`, but the surfaced error is the retry's redirect error,
not the original https-dispatch error. -/
theorem claim_c10_counterexample :
    (fetch envC10x jobC10x).job.Req = some ⟨"GET", ⟨"http", "h", "/"⟩⟩ ∧
    (fetch envC10x jobC10x).job.Err = some "redirect cancelled \n/a\n/b\n" ∧
    (some "redirect cancelled \n/a\n/b\n" : Option String) ≠
      some "SSL_CERTIFICATE_ERROR" := by
  exact ⟨by decide, by decide, by decide⟩

/-- Witness for C10 at a concrete failed fallback: the scheme stays http
and the original error is surfaced. -/
theorem claim_c10_witness :
    (fetch envTLSThenRefused { Req := some reqHttpsGet }).job.Req =
      some (downgrade reqHttpsGet) :=
  (claim_c10_amended envTLSThenRefused { Req := some reqHttpsGet }
      { Req := some reqHttpsGet, Timeout := 35, Msg := "standard  client\n" }
      reqHttpsGet none none "SSL_CERTIFICATE_ERROR" "connection refused"
      (by decide) rfl (by decide) (by decide) rfl rfl rfl).1


/-! ### Claim C7 -/

/-- C7: on a successful response the `Last-Modified` header is parsed trying
RFC1123 first, then RFC1123Z; an absent header (empty string, as returned by
`Header.Get`) or one rejected by both formats leaves the modification time
at the zero value. -/
theorem claim_c7_last_modified (env : Env) (f0 f : Job) (req : Request)
    (resp : Response) (bs : List Nat)
    (hprep : prepare env f0 = Sum.inr (f, req))
    (hdo : env.httpDo req = (some resp, none))
    (hbody : resp.hasBody = true)
    (hread : env.readAll resp = (bs, none)) :
    (resp.lastModified = "" → (fetch env f0).job.Mod = none) ∧
    (resp.lastModified ≠ "" →
      ∀ t, env.parseRFC1123 resp.lastModified = some t →
        (fetch env f0).job.Mod = some t) ∧
    (resp.lastModified ≠ "" →
      env.parseRFC1123 resp.lastModified = none →
      ∀ t, env.parseRFC1123Z resp.lastModified = some t →
        (fetch env f0).job.Mod = some t) ∧
    (resp.lastModified ≠ "" →
      env.parseRFC1123 resp.lastModified = none →
      env.parseRFC1123Z resp.lastModified = none →
      (fetch env f0).job.Mod = none) := by
  have hfetch : fetch env f0 = dispatchPhase env f req := by
    unfold fetch; rw [hprep]
  refine ⟨?_, ?_, ?_, ?_⟩
  · intro h
    rw [hfetch]
    simp only [dispatchPhase, hdo]
    simp [successTail, hbody, hread, h]
  · intro hne t hpt
    rw [hfetch]
    simp only [dispatchPhase, hdo]
    simp [successTail, hbody, hread, hne, hpt]
  · intro hne hp1 t hpt
    rw [hfetch]
    simp only [dispatchPhase, hdo]
    simp [successTail, hbody, hread, hne, hp1, hpt]
  · intro hne hp1 hp2
    rw [hfetch]
    simp only [dispatchPhase, hdo]
    simp [successTail, hbody, hread, hne, hp1, hp2]

/-- Concrete response carrying the spec's example `Last-Modified` value. -/
def respC7 : Response := ⟨200, true, "Sat, 29 Aug 2015 21:15:39 GMT"⟩

/-- Environment for the C7 witness: a successful response whose
`Last-Modified` header parses under RFC1123 to the example instant
(Unix seconds 1440882939). -/
def envC7w : Env :=
  { baseEnv with
    httpDo := fun _ => (some respC7, none)
    readAll := fun _ => ([104, 105], none)
    parseRFC1123 := fun s =>
      if s == "Sat, 29 Aug 2015 21:15:39 GMT" then some 1440882939 else none }

/-- Witness for C7 at the spec's example header value. -/
theorem claim_c7_witness :
    (fetch envC7w { Req := some reqHttpsGet }).job.Mod = some 1440882939 :=
  ((claim_c7_last_modified envC7w { Req := some reqHttpsGet }
      { Req := some reqHttpsGet, Timeout := 35, Msg := "standard  client\n" }
      reqHttpsGet respC7 [104, 105]
      (by decide) rfl rfl rfl).2.1 (by decide) 1440882939 (by decide))


/-! ### Claim C9 -/

/-- Response for the body-leak evaluation: success with a body present. -/
def respC9 : Response := ⟨200, true, ""⟩

/-- Environment in which the dispatch succeeds but reading the body fails
midway (partial bytes plus a read error, as `ioutil.ReadAll` reports). -/
def envC9 : Env :=
  { baseEnv with
    httpDo := fun _ => (some respC9, none)
    readAll := fun _ => ([104], some "unexpected EOF") }

/-- C9 evaluation: when the body read fails, `Fetch` returns before the
`defer resp.Body.Close()` on fetcher.go line 266 is ever registered — the
read was started (`bodyRead`) but the body is never released
(`bodyClosed = false`). -/
theorem claim_c9_body_leak :
    (fetch envC9 { Req := some reqHttpsGet }).bodyRead = true ∧
    (fetch envC9 { Req := some reqHttpsGet }).bodyClosed = false ∧
    (fetch envC9 { Req := some reqHttpsGet }).job.Err = some "unexpected EOF" :=
  ⟨by decide, by decide, by decide⟩

/-! ### Claim C5 -/

/-- C5 counterexample: on a body-read failure both the error field and the
status code are meaningfully populated (the status is the real 200 captured
before the read), contradicting "never both". -/
theorem claim_c5_counterexample :
    (fetch envC9 { Req := some reqHttpsGet }).job.Err = some "unexpected EOF" ∧
    (fetch envC9 { Req := some reqHttpsGet }).job.Status = 200 :=
  ⟨by decide, by decide⟩


/-! ### Frame/inversion lemmas for C5 -/

theorem stepForce_Status (f : Job) (req : Request) :
    ((stepForce f req).1).Status = f.Status := by
  unfold stepForce; dsimp only; repeat' split
  all_goals rfl

theorem stepForce_Err (f : Job) (req : Request) :
    ((stepForce f req).1).Err = f.Err := by
  unfold stepForce; dsimp only; repeat' split
  all_goals rfl

theorem stepAeProbe_Status (env : Env) (f : Job) :
    (stepAeProbe env f).Status = f.Status := by
  unfold stepAeProbe; split <;> rfl

theorem stepAeProbe_Err (env : Env) (f : Job) :
    (stepAeProbe env f).Err = f.Err := by
  unfold stepAeProbe; split <;> rfl

theorem stepClient_Status (env : Env) (f : Job) (req : Request) :
    ((stepClient env f req).1).Status = f.Status := by
  unfold stepClient; dsimp only; repeat' split
  all_goals rfl

theorem stepClient_Err (env : Env) (f : Job) (req : Request) :
    ((stepClient env f req).1).Err = f.Err := by
  unfold stepClient; dsimp only; repeat' split
  all_goals rfl

theorem stepLogStd_Status (f : Job) (req : Request) :
    (stepLogStd f req).Status = f.Status := by
  unfold stepLogStd; split <;> rfl

theorem stepLogStd_Err (f : Job) (req : Request) :
    (stepLogStd f req).Err = f.Err := by
  unfold stepLogStd; split <;> rfl

theorem afterReq_Status (env : Env) (g : Job) (r : Request) :
    ((afterReq env g r).1).Status = g.Status := by
  unfold afterReq
  dsimp only
  rw [stepLogStd_Status, stepClient_Status, stepAeProbe_Status, stepForce_Status]

theorem afterReq_Err (env : Env) (g : Job) (r : Request) :
    ((afterReq env g r).1).Err = g.Err := by
  unfold afterReq
  dsimp only
  rw [stepLogStd_Err, stepClient_Err, stepAeProbe_Err, stepForce_Err]

theorem prepare_inl_spec (env : Env) (f0 f : Job)
    (h : prepare env f0 = Sum.inl f) :
    f.Status = f0.Status ∧ f.Err ≠ none := by
  unfold prepare at h
  dsimp only at h
  split at h
  · split at h
    · injection h with h'
      subst h'
      exact ⟨by simp [prepLog_Status, prepTimeout_Status], by simp⟩
    · split at h
      · injection h with h'
        subst h'
        exact ⟨by simp [prepLog_Status, prepTimeout_Status], by simp⟩
      · exact absurd h (by simp)
  · exact absurd h (by simp)

theorem prepare_inr_spec (env : Env) (f0 f : Job) (req : Request)
    (h : prepare env f0 = Sum.inr (f, req)) :
    f.Status = f0.Status ∧ f.Err = f0.Err := by
  unfold prepare at h
  dsimp only at h
  split at h
  · split at h
    · exact absurd h (by simp)
    · split at h
      · exact absurd h (by simp)
      · injection h with h'
        have h1 := congrArg Prod.fst h'
        dsimp only at h1
        rw [← h1]
        exact ⟨by rw [afterReq_Status]; simp [prepLog_Status, prepTimeout_Status],
               by rw [afterReq_Err]; simp [prepLog_Err, prepTimeout_Err]⟩
  · injection h with h'
    have h1 := congrArg Prod.fst h'
    dsimp only at h1
    rw [← h1]
    exact ⟨by rw [afterReq_Status]; simp [prepLog_Status, prepTimeout_Status],
           by rw [afterReq_Err]; simp [prepLog_Err, prepTimeout_Err]⟩

theorem successTail_c5 (env : Env) (f : Job) (resp : Option Response)
    (tr : List Request)
    (hstat : ∀ rs, resp = some rs → rs.statusCode ≠ 0) :
    ((successTail env f resp tr).job.Err = none →
      (successTail env f resp tr).job.Status ≠ 0 ∧
      (successTail env f resp tr).bodyRead = true) ∧
    ((successTail env f resp tr).job.Err ≠ none →
      (successTail env f resp tr).job.Status = f.Status ∨
      ((successTail env f resp tr).bodyRead = true ∧
       (successTail env f resp tr).bodyClosed = false)) := by
  rcases resp with _ | rs
  · simp [successTail]
  · by_cases hb : rs.hasBody = true
    · rcases h : env.readAll rs with ⟨bs, _ | e⟩
      · simp [successTail, hb, h]
        exact hstat rs rfl
      · simp [successTail, hb, h]
    · simp [successTail, hb]

theorem dispatchPhase_c5 (env : Env) (f : Job) (req : Request)
    (hwf : ∀ rq rs, env.httpDo rq = (some rs, none) → rs.statusCode ≠ 0) :
    ((dispatchPhase env f req).job.Err = none →
      (dispatchPhase env f req).job.Status ≠ 0 ∧
      (dispatchPhase env f req).bodyRead = true) ∧
    ((dispatchPhase env f req).job.Err ≠ none →
      (dispatchPhase env f req).job.Status = f.Status ∨
      ((dispatchPhase env f req).bodyRead = true ∧
       (dispatchPhase env f req).bodyClosed = false)) := by
  have key : ∀ (F : Job) (tr : List Request) (resp' : Option Response),
      F.Status = f.Status →
      (∀ rs, resp' = some rs → rs.statusCode ≠ 0) →
      ((successTail env F resp' tr).job.Err = none →
        (successTail env F resp' tr).job.Status ≠ 0 ∧
        (successTail env F resp' tr).bodyRead = true) ∧
      ((successTail env F resp' tr).job.Err ≠ none →
        (successTail env F resp' tr).job.Status = f.Status ∨
        ((successTail env F resp' tr).bodyRead = true ∧
         (successTail env F resp' tr).bodyClosed = false)) := by
    intro F tr resp' hF hstat
    have h := successTail_c5 env F resp' tr hstat
    rw [hF] at h
    exact h
  rcases hdo : env.httpDo req with ⟨resp, _ | e⟩
  · have hst : ∀ rs, resp = some rs → rs.statusCode ≠ 0 := by
      intro rs hrs
      subst hrs
      exact hwf req rs hdo
    simp only [dispatchPhase, hdo]
    exact key _ _ _ rfl hst
  · simp only [dispatchPhase, hdo]
    split
    · simp
    · split
      · split <;> simp
      · split
        · rcases hdo2 : env.httpDo (downgrade req) with ⟨resp2, _ | e2⟩
          · have hst2 : ∀ rs, resp2 = some rs → rs.statusCode ≠ 0 := by
              intro rs hrs
              subst hrs
              exact hwf (downgrade req) rs hdo2
            simp only [hdo2]
            exact key _ _ _ rfl hst2
          · simp only [hdo2]
            split <;> simp
        · simp

/-- C5 (amended): after `Fetch` returns, either the error field is clear
and the status/body were captured, or the error field is set and the status
is still its initial zero — with exactly one exception: a body-read failure
leaves the error set alongside the already-captured status (and partial
body), which is also the execution in which the body is never closed. -/
theorem claim_c5_amended (env : Env) (f0 : Job)
    (h0 : f0.Status = 0)
    (hwf : ∀ rq rs, env.httpDo rq = (some rs, none) → rs.statusCode ≠ 0) :
    ((fetch env f0).job.Err = none →
      (fetch env f0).job.Status ≠ 0 ∧ (fetch env f0).bodyRead = true) ∧
    ((fetch env f0).job.Err ≠ none →
      ((fetch env f0).job.Status = 0 ∨
       ((fetch env f0).bodyRead = true ∧
        (fetch env f0).bodyClosed = false))) := by
  rcases hpre : prepare env f0 with fL | ⟨f, req⟩
  · have hfe : fetch env f0 = ⟨fL, [], false, false⟩ := by
      unfold fetch; rw [hpre]
    obtain ⟨hs, he⟩ := prepare_inl_spec env f0 fL hpre
    rw [hfe]
    exact ⟨fun hnone => absurd hnone he, fun _ => Or.inl (hs.trans h0)⟩
  · have hfe : fetch env f0 = dispatchPhase env f req := by
      unfold fetch; rw [hpre]
    obtain ⟨hs, -⟩ := prepare_inr_spec env f0 f req hpre
    rw [hfe]
    have h := dispatchPhase_c5 env f req hwf
    rw [hs, h0] at h
    exact h

/-- Environment for the C5 witness: one clean, successful fetch. -/
def envOK : Env :=
  { baseEnv with httpDo := fun _ => (some ⟨200, true, ""⟩, none) }

/-- Witness for C5 (amended) at a concrete successful fetch. -/
theorem claim_c5_witness :
    ((fetch envOK { Req := some reqHttpsGet }).job.Err = none →
      (fetch envOK { Req := some reqHttpsGet }).job.Status ≠ 0 ∧
      (fetch envOK { Req := some reqHttpsGet }).bodyRead = true) ∧
    ((fetch envOK { Req := some reqHttpsGet }).job.Err ≠ none →
      ((fetch envOK { Req := some reqHttpsGet }).job.Status = 0 ∨
       ((fetch envOK { Req := some reqHttpsGet }).bodyRead = true ∧
        (fetch envOK { Req := some reqHttpsGet }).bodyClosed = false))) :=
  claim_c5_amended envOK { Req := some reqHttpsGet } rfl
    (by
      intro rq rs h
      simp only [envOK] at h
      injection h with h1 h2
      injection h1 with h1'
      subst h1'
      decide)


/-! ### Frame lemmas for C8 -/

theorem stepAeProbe_ForceProtocol (env : Env) (f : Job) :
    (stepAeProbe env f).ForceProtocol = f.ForceProtocol := by
  unfold stepAeProbe; split <;> rfl

theorem stepAeProbe_hasAeReq (env : Env) (f : Job) :
    (stepAeProbe env f).hasAeReq = f.hasAeReq := by
  unfold stepAeProbe; split <;> rfl

theorem stepAeProbe_ForceHttps (env : Env) (f : Job) :
    (stepAeProbe env f).ForceHttps = f.ForceHttps := by
  unfold stepAeProbe; split <;> rfl

theorem stepClient_ForceProtocol (env : Env) (f : Job) (req : Request) :
    ((stepClient env f req).1).ForceProtocol = f.ForceProtocol := by
  unfold stepClient; dsimp only; repeat' split
  all_goals rfl

theorem stepLogStd_ForceProtocol (f : Job) (req : Request) :
    (stepLogStd f req).ForceProtocol = f.ForceProtocol := by
  unfold stepLogStd; split <;> rfl

theorem stepClient_noDowngrade (env : Env) (f : Job) (req : Request)
    (hdev : f.hasAeReq = false ∨ env.aeContextOk = false ∨
            env.isDevAppServer = false ∨ f.ForceHttps = true) :
    (stepClient env f req).2 = req := by
  unfold stepClient
  dsimp only
  rcases hdev with h | h | h | h
  · simp [h]
  · simp [h]
  · split
    · rfl
    · simp [h]
  · split
    · rfl
    · simp [h]

theorem stepForce_force (g : Job) (req : Request) (p : String)
    (hp : p = "http" ∨ p = "https") (hfp : g.ForceProtocol = p ++ ":") :
    stepForce g req =
      ({ g with ForceProtocol := p,
                Msg := g.Msg ++ "Forcing protocol \"" ++ p ++ "\"\n" },
       { req with url := { req.url with scheme := p } }) := by
  rcases hp with rfl | rfl
  · have hfp' : g.ForceProtocol = "http:" := by rw [hfp]; rfl
    have hlen : ("http:" : String).length = 5 := by decide
    have ht : trimColon "http:" = "http" := by decide
    simp [stepForce, hfp', hlen, ht]
  · have hfp' : g.ForceProtocol = "https:" := by rw [hfp]; rfl
    have hlen : ("https:" : String).length = 6 := by decide
    have ht : trimColon "https:" = "https" := by decide
    simp [stepForce, hfp', hlen, ht]

theorem afterReq_force (env : Env) (g : Job) (r : Request) (p : String)
    (hp : p = "http" ∨ p = "https")
    (hfp : g.ForceProtocol = p ++ ":")
    (hdev : g.hasAeReq = false ∨ env.aeContextOk = false ∨
            env.isDevAppServer = false ∨ g.ForceHttps = true) :
    ((afterReq env g r).1).ForceProtocol = p ∧
    ((afterReq env g r).2).url.scheme = p := by
  have hsf := stepForce_force g (stepPath r) p hp hfp
  have hF1P : ((stepForce g (stepPath r)).1).ForceProtocol = p := by rw [hsf]
  have hF1A : ((stepForce g (stepPath r)).1).hasAeReq = g.hasAeReq := by rw [hsf]
  have hF1H : ((stepForce g (stepPath r)).1).ForceHttps = g.ForceHttps := by rw [hsf]
  have hR1 : ((stepForce g (stepPath r)).2).url.scheme = p := by rw [hsf]
  unfold afterReq
  dsimp only
  have hdevG : (stepAeProbe env (stepForce g (stepPath r)).1).hasAeReq = false ∨
      env.aeContextOk = false ∨ env.isDevAppServer = false ∨
      (stepAeProbe env (stepForce g (stepPath r)).1).ForceHttps = true := by
    rcases hdev with h | h | h | h
    · exact Or.inl ((stepAeProbe_hasAeReq _ _).trans (hF1A.trans h))
    · exact Or.inr (Or.inl h)
    · exact Or.inr (Or.inr (Or.inl h))
    · exact Or.inr (Or.inr (Or.inr ((stepAeProbe_ForceHttps _ _).trans (hF1H.trans h))))
  rw [stepClient_noDowngrade _ _ _ hdevG]
  constructor
  · rw [stepLogStd_ForceProtocol, stepClient_ForceProtocol,
        stepAeProbe_ForceProtocol, hF1P]
  · exact hR1

theorem prepare_inr_afterReq (env : Env) (f0 f : Job) (req : Request)
    (h : prepare env f0 = Sum.inr (f, req)) :
    ∃ g r0, afterReq env g r0 = (f, req) ∧
      g.ForceProtocol = f0.ForceProtocol ∧ g.hasAeReq = f0.hasAeReq ∧
      g.ForceHttps = f0.ForceHttps := by
  unfold prepare at h
  dsimp only at h
  split at h
  · split at h
    · exact absurd h (by simp)
    · split at h
      · exact absurd h (by simp)
      · injection h with h'
        exact ⟨_, _, h',
          by simp [prepLog_ForceProtocol, prepTimeout_ForceProtocol],
          by simp [prepLog_hasAeReq, prepTimeout_hasAeReq],
          by simp [prepLog_ForceHttps, prepTimeout_ForceHttps]⟩
  · injection h with h'
    exact ⟨_, _, h',
      by simp [prepLog_ForceProtocol, prepTimeout_ForceProtocol],
      by simp [prepLog_hasAeReq, prepTimeout_hasAeReq],
      by simp [prepLog_ForceHttps, prepTimeout_ForceHttps]⟩

theorem successTail_ForceProtocol (env : Env) (f : Job) (resp : Option Response)
    (tr : List Request) :
    (successTail env f resp tr).job.ForceProtocol = f.ForceProtocol := by
  rcases resp with _ | rs
  · rfl
  · by_cases hb : rs.hasBody = true
    · rcases h : env.readAll rs with ⟨bs, _ | e⟩ <;> simp [successTail, hb, h]
    · simp [successTail, hb]

theorem dispatchPhase_ForceProtocol (env : Env) (f : Job) (req : Request) :
    (dispatchPhase env f req).job.ForceProtocol = f.ForceProtocol := by
  rcases hdo : env.httpDo req with ⟨resp, _ | e⟩
  · simp only [dispatchPhase, hdo]
    simp [successTail_ForceProtocol]
  · simp only [dispatchPhase, hdo]
    split
    · rfl
    · split
      · split <;> rfl
      · split
        · rcases hdo2 : env.httpDo (downgrade req) with ⟨resp2, _ | e2⟩
          · simp only [hdo2]
            simp [successTail_ForceProtocol]
          · simp only [hdo2]
            split <;> rfl
        · rfl

theorem dispatchPhase_head (env : Env) (f : Job) (req : Request) :
    (dispatchPhase env f req).trace.head? = some req := by
  rcases hdo : env.httpDo req with ⟨resp, _ | e⟩
  · simp only [dispatchPhase, hdo]
    simp [successTail_trace]
  · simp only [dispatchPhase, hdo]
    split
    · rfl
    · split
      · split <;> rfl
      · split
        · rcases hdo2 : env.httpDo (downgrade req) with ⟨resp2, _ | e2⟩
          · simp only [hdo2]
            simp [successTail_trace]
          · simp only [hdo2]
            split <;> rfl
        · rfl

/-! ### Claim C8 -/

/-- Environment for the C8 counterexample: an appengine dev server with a
working context. -/
def envC8x : Env :=
  { baseEnv with aeContextOk := true, isDevAppServer := true }

/-- Job for the C8 counterexample: forced protocol `https:` but
`ForceHttps` left false, on an appengine request. -/
def jobC8x : Job :=
  { Req := some reqHttpsGet, ForceProtocol := "https:", hasAeReq := true }

/-- C8 counterexample: `ForceProtocol = "https:"` is normalized to `https`
and applied, yet the request is dispatched with scheme `http` — the
appengine dev-server downgrade overrides the forced protocol, so the
override does not win over every other scheme decision. -/
theorem claim_c8_counterexample :
    (fetch envC8x jobC8x).job.ForceProtocol = "https" ∧
    (fetch envC8x jobC8x).trace = [⟨"GET", ⟨"http", "h", "/"⟩⟩] :=
  ⟨by decide, by decide⟩

/-- C8 (amended): a `ForceProtocol` of `"https:"` (resp. `"http:"`) is
normalized by trimming the trailing colon and overrides the request scheme,
provided the appengine dev-server downgrade does not apply afterwards; the
dispatched request then carries the forced scheme and the job keeps the
trimmed value. -/
theorem claim_c8_amended (env : Env) (f0 f : Job) (req : Request) (p : String)
    (hp : p = "http" ∨ p = "https")
    (hfp : f0.ForceProtocol = p ++ ":")
    (hdev : f0.hasAeReq = false ∨ env.aeContextOk = false ∨
            env.isDevAppServer = false ∨ f0.ForceHttps = true)
    (hprep : prepare env f0 = Sum.inr (f, req)) :
    f.ForceProtocol = p ∧ req.url.scheme = p ∧
    (fetch env f0).trace.head? = some req ∧
    (fetch env f0).job.ForceProtocol = p := by
  obtain ⟨g, r0, hafter, hgfp, hgae, hgfh⟩ := prepare_inr_afterReq env f0 f req hprep
  have hforce := afterReq_force env g r0 p hp (hgfp.trans hfp)
    (by
      rcases hdev with h | h | h | h
      · exact Or.inl (hgae.trans h)
      · exact Or.inr (Or.inl h)
      · exact Or.inr (Or.inr (Or.inl h))
      · exact Or.inr (Or.inr (Or.inr (hgfh.trans h))))
  rw [hafter] at hforce
  have hfetch : fetch env f0 = dispatchPhase env f req := by
    unfold fetch; rw [hprep]
  exact ⟨hforce.1, hforce.2, by rw [hfetch, dispatchPhase_head],
         by rw [hfetch, dispatchPhase_ForceProtocol, hforce.1]⟩

/-- Job for the C8 witness: plain-http request with forced `https:`. -/
def jobC8w : Job :=
  { Req := some ⟨"GET", ⟨"http", "h", "/"⟩⟩, ForceProtocol := "https:" }

/-- The same job as prepared by `prepare` (timeout defaulted, protocol
trimmed, log lines appended). -/
def jobC8wPrep : Job :=
  { Req := some ⟨"GET", ⟨"http", "h", "/"⟩⟩, ForceProtocol := "https",
    Timeout := 35, Msg := "Forcing protocol \"https\"\nstandard  client\n" }

/-- Witness for C8 (amended): forcing `https:` on a plain-http request
dispatches it over https and stores the trimmed protocol. -/
theorem claim_c8_witness :
    jobC8wPrep.ForceProtocol = "https" ∧
    (⟨"GET", ⟨"https", "h", "/"⟩⟩ : Request).url.scheme = "https" ∧
    (fetch baseEnv jobC8w).trace.head? = some ⟨"GET", ⟨"https", "h", "/"⟩⟩ ∧
    (fetch baseEnv jobC8w).job.ForceProtocol = "https" :=
  claim_c8_amended baseEnv jobC8w jobC8wPrep
    ⟨"GET", ⟨"https", "h", "/"⟩⟩ "https"
    (Or.inr rfl) rfl (Or.inl rfl) (by decide)

end Fetcher
